import Mathlib

/-!
Verification of the vite-mini module resolution and transform pipeline
(src/packages/vite-mini/index.js) against its specification.

The embedding models module source text as `List Char` (JS strings at the
granularity the pipeline uses: indexing, slice, substring, concatenation).
The external collaborators -- the es-module-lexer scan, the JSON parser,
the filesystem, the esbuild bundler and the SFC parser/template compiler --
are inputs to the embedded functions, matching the spec's component
boundaries: the repository's code is the orchestration around them.

Lexer records follow es-module-lexer's documented contract: for a static
occurrence the span [s, e) excludes the surrounding quotes; for a dynamic
occurrence the span covers the whole argument expression including quotes,
d is the non-negative start index, and n carries the specifier when the
argument is a plain string literal.
-/

set_option autoImplicit false

namespace ViteMini

/-- Module source text, one JS string position per element. -/
abbrev Text := List Char

/-- A filesystem path, POSIX-modelled as the list of segments below the root. -/
abbrev PathSegs := List Text

/-- One import occurrence as reported by the external lexer (`parse` from
es-module-lexer): span start `s`, span end `e`, dynamic start index `d`
(-1 for a static import), and the specifier `n` when statically analyzable. -/
structure ImportRecord where
  s : Nat
  e : Nat
  d : Int
  n : Option Text
deriving DecidableEq

/-- Whether a JS string value starts with the single character `c`
(`str.startsWith(c)` in the source for a one-character argument). -/
def startsWithChar (t : Text) (c : Char) : Bool :=
  match t with
  | [] => false
  | c0 :: _ => c0 = c

/-- The bare-specifier test of rewriteImports (index.js:202): the lexed name is
present and truthy (a missing or empty name is falsy in JS) and starts with
neither "/" nor ".". -/
def isBareName (n : Option Text) : Bool :=
  match n with
  | none => false
  | some name => !name.isEmpty && !startsWithChar name '/' && !startsWithChar name '.'

/-- One iteration of the rewrite loop of rewriteImports (index.js:198-207):
a slice-based splice of the span [s, e) with "/@modules/" followed by the
lexed name, applied only when `isBareName` holds. The dynamic flag `d` is
not consulted anywhere in this loop, exactly as in the source. -/
def rewriteStep (acc : Text) (r : ImportRecord) : Text :=
  match r.n with
  | none => acc
  | some name =>
    if !name.isEmpty && !startsWithChar name '/' && !startsWithChar name '.' then
      acc.take r.s ++ ("/@modules/".toList ++ name) ++ acc.drop r.e
    else acc

/-- rewriteImports (index.js:193-211): `for (let i = imports.length - 1; i >= 0; i--)`
over the lexer's records, splicing each bare specifier span into the running
string. The right-to-left order is the source's protection against offset
drift between splices. -/
def rewriteImports (imports : List ImportRecord) (code : Text) : Text :=
  imports.reverse.foldl rewriteStep code

/-- The served .js transform (index.js:56-66): the request handler reads the
file and passes its content through rewriteImports only; resolveImports is
defined in the same closure but is not invoked on this path. -/
def serveJs (imports : List ImportRecord) (code : Text) : Text :=
  rewriteImports imports code

/-- Split a specifier on "/" (the segment view of a relative path such as
"./foo.js"), accumulator-based. -/
def splitSlashAux : Text → Text → List Text
  | [], cur => [cur.reverse]
  | c :: rest, cur =>
    if c = '/' then cur.reverse :: splitSlashAux rest []
    else splitSlashAux rest (c :: cur)

/-- Split a text on the "/" separator. -/
def splitSlash (t : Text) : List Text := splitSlashAux t []

/-- Apply relative segments to a base path the way Node's path.resolve
normalizes: "." and empty segments vanish, ".." pops, anything else pushes. -/
def applySegs (base : PathSegs) : List Text → PathSegs
  | [] => base
  | seg :: rest =>
    if seg = [] ∨ seg = ['.'] then applySegs base rest
    else if seg = ['.', '.'] then applySegs base.dropLast rest
    else applySegs (base ++ [seg]) rest

/-- Drop the longest common leading run of two segment lists
(the shared ancestor directory for path.relative). -/
def dropCommon : PathSegs → PathSegs → PathSegs × PathSegs
  | a :: as, b :: bs => if a = b then dropCommon as bs else (a :: as, b :: bs)
  | as, bs => (as, bs)

/-- Node path.relative on the segment model: climb out of what is left of
the origin, then descend into what is left of the target. -/
def pathRelative (f t : PathSegs) : PathSegs :=
  let p := dropCommon f t
  List.replicate p.1.length ['.', '.'] ++ p.2

/-- Join segments with "/" separators. -/
def joinSlash : PathSegs → Text
  | [] => []
  | [seg] => seg
  | seg :: rest => seg ++ '/' :: joinSlash rest

/-- Contiguous slice [s, e) of a text (JS substring at original coordinates). -/
def subseg (l : Text) (s e : Nat) : Text := (l.take e).drop s

/-- One recorded overwrite of MagicString (magicString.overwrite(start, end, text)):
coordinates refer to the original text. -/
structure Edit where
  s : Nat
  e : Nat
  repl : Text

/-- MagicString semantics for a batch of non-overlapping overwrites recorded at
original coordinates: toString copies the untouched stretches of the original
and substitutes each edit, in ascending span order. `pos` is the copy cursor. -/
def applyEdits (code : Text) : Nat → List Edit → Text
  | pos, [] => code.drop pos
  | pos, ed :: rest => subseg code pos ed.s ++ ed.repl ++ applyEdits code ed.e rest

/-- The edits resolveImports (index.js:126-147) records against the original
text: a dynamic occurrence (d > -1) is skipped, an absolute specifier
(leading "/") is skipped, and a remaining specifier is resolved against the
importing module's directory and re-expressed root-relative to the process
working directory. The source's backslash normalization is the identity in
this POSIX segment model. -/
def resolveEdits (code : Text) (currentDir cwd : PathSegs) : List ImportRecord → List Edit
  | [] => []
  | r :: rest =>
    if r.d > -1 then resolveEdits code currentDir cwd rest
    else
      let importPath := subseg code r.s r.e
      if startsWithChar importPath '/' then resolveEdits code currentDir cwd rest
      else
        let resolved := applySegs currentDir (splitSlash importPath)
        let normalized := '/' :: joinSlash (pathRelative cwd resolved)
        ⟨r.s, r.e, normalized⟩ :: resolveEdits code currentDir cwd rest

/-- resolveImports (index.js:126-147): returns the code untouched when the
lexer found no imports, otherwise applies the recorded overwrites through
the MagicString model. -/
def resolveImports (imports : List ImportRecord) (code : Text)
    (currentDir cwd : PathSegs) : Text :=
  if imports.length = 0 then code
  else applyEdits code 0 (resolveEdits code currentDir cwd imports)

/-- The component descriptor the external SFC parser returns (index.js:77):
each block is present or absent, carrying its raw content when present. -/
structure SFCDescriptor where
  script : Option Text
  scriptSetup : Option Text
  template : Option Text

/-- The script-content choice of the .vue handler (index.js:79-84):
`if (descriptor.script) ... else if (descriptor.scriptSetup) ...`, so a
present script block is taken first and the scriptSetup branch runs only
when no script block exists. -/
def chooseScript (d : SFCDescriptor) : Text :=
  match d.script with
  | some c => c
  | none =>
    match d.scriptSetup with
    | some c => c
    | none => []

/-- The render-function wrapper of the .vue handler (index.js:92): the compiled
template fragment becomes the body of an exported render function with the
fixed six-parameter list. -/
def renderWrapper (compiledCode : Text) : Text :=
  "export function render(_ctx, _cache, $props, $setup, $data, $options) \x7b ".toList
    ++ compiledCode ++ " \x7d".toList

/-- The synthesized module of the .vue handler (index.js:79-99): chosen script
content and, when a template block exists, the wrapped output of the external
template compiler, joined inside the source's template literal (its exact
leading and trailing whitespace reproduced). -/
def synthesizeVue (compile : Text → Text) (d : SFCDescriptor) : Text :=
  let scriptContent := chooseScript d
  let templateContent :=
    match d.template with
    | some t => renderWrapper (compile t)
    | none => []
  "\n      ".toList ++ scriptContent ++ "\n      ".toList ++ templateContent
    ++ "\n                        ".toList

/-- The process-wide pre-bundle cache (index.js:28, `const depCache = new Map()`),
modelled as an association list in insertion order. -/
abbrev DepCache := List (Text × Text)

/-- Map.prototype.get combined with Map.prototype.has: the stored bundled text
for a package name, when present. -/
def lookupDep : DepCache → Text → Option Text
  | [], _ => none
  | (k, v) :: rest, id => if k = id then some v else lookupDep rest id

/-- Map.prototype.set: replace the value under an existing key, or append. -/
def setDep : DepCache → Text → Text → DepCache
  | [], id, v => [(id, v)]
  | (k, w) :: rest, id, v =>
    if k = id then (k, v) :: rest else (k, w) :: setDep rest id v

instance {ε α : Type} [DecidableEq ε] [DecidableEq α] : DecidableEq (Except ε α) := fun a b =>
  match a, b with
  | .ok x, .ok y =>
    if h : x = y then .isTrue (by rw [h]) else .isFalse (by simp [h])
  | .error x, .error y =>
    if h : x = y then .isTrue (by rw [h]) else .isFalse (by simp [h])
  | .ok _, .error _ => .isFalse (by simp)
  | .error _, .ok _ => .isFalse (by simp)

/-- The outcome of one optimizeDep call: the value returned or the propagated
error, the cache after the call, and whether the external bundler ran. -/
structure DepResult where
  result : Except Unit Text
  cache : DepCache
  invoked : Bool
deriving DecidableEq

/-- optimizeDep (index.js:166-190): return the cached text on a hit; on a miss
invoke the external bundler on the entry file, store the output under the
package name on success, and rethrow on failure without touching the cache. -/
def optimizeDep (bundler : PathSegs → Except Unit Text) (cache : DepCache)
    (id : Text) (filepath : PathSegs) : DepResult :=
  match lookupDep cache id with
  | some t => ⟨.ok t, cache, false⟩
  | none =>
    match bundler filepath with
    | .ok t => ⟨.ok t, setDep cache id t, true⟩
    | .error e => ⟨.error e, cache, true⟩

/-- The synchronous prefix of optimizeDep, up to its first await point: the
cache check and, on a miss, the start of the bundler invocation. The request
then suspends until the build resolves; other requests may run in between. -/
def optimizeDepCheck (bundler : PathSegs → Except Unit Text) (cache : DepCache)
    (id : Text) (filepath : PathSegs) : (Except Unit Text ⊕ Text) × Bool :=
  match lookupDep cache id with
  | some t => (.inr t, false)
  | none => (.inl (bundler filepath), true)

/-- The continuation of optimizeDep after the await: a hit returns the cached
text; a resolved build is stored on success and rethrown on failure. The
cache passed here is the cache at resumption time, which in an interleaved
execution need not be the one the check saw. -/
def optimizeDepResume (cache : DepCache) (id : Text) :
    (Except Unit Text ⊕ Text) → Except Unit Text × DepCache
  | .inr t => (.ok t, cache)
  | .inl (.ok t) => (.ok t, setDep cache id t)
  | .inl (.error e) => (.error e, cache)

/-- optimizeDep as check-then-resume with no interleaving in between: the
sequential composition of the two phases. -/
def optimizeDepSequential (bundler : PathSegs → Except Unit Text) (cache : DepCache)
    (id : Text) (filepath : PathSegs) : DepResult :=
  let c := optimizeDepCheck bundler cache id filepath
  let r := optimizeDepResume cache id c.1
  ⟨r.1, r.2, c.2⟩

/-- The outcome of two interleaved optimizeDep calls for the same package:
each caller's returned value, the final cache, and how many times the
external bundler was invoked in total. -/
structure ConcurrentOutcome where
  resultA : Except Unit Text
  resultB : Except Unit Text
  cache : DepCache
  invocations : Nat
deriving DecidableEq

/-- Two requests A and B for the same package, interleaved at the await point
of optimizeDep under the single-threaded cooperative scheduler: A runs its
synchronous prefix, then B runs its synchronous prefix against the still
unchanged cache, then A's build resolves and writes, then B's resolves and
writes. Invocations are counted from the two check phases. -/
def twoConcurrentCalls (bundler : PathSegs → Except Unit Text) (cache0 : DepCache)
    (id : Text) (filepath : PathSegs) : ConcurrentOutcome :=
  let a := optimizeDepCheck bundler cache0 id filepath
  let b := optimizeDepCheck bundler cache0 id filepath
  let ra := optimizeDepResume cache0 id a.1
  let rb := optimizeDepResume ra.2 id b.1
  ⟨ra.1, rb.1, rb.2, (cond a.2 1 0) + (cond b.2 1 0)⟩

/-- The package manifest as the external JSON parser delivers it: the optional
module and main string fields (package.json convention). -/
structure ManifestVal where
  moduleField : Option Text
  mainField : Option Text

/-- JS `a || b` over string values: an absent or empty string falls through. -/
def jsStrOr (v : Option Text) (fallback : Text) : Text :=
  match v with
  | none => fallback
  | some s => if s.isEmpty then fallback else s

/-- resolveBareModule (index.js:150-163): read <nodeModulesDir>/<id>/package.json,
parse it, select module over main over "index.js" with JS falsiness, and join
the package directory with the entry. A failed read or parse is caught, logged
and rethrown, so the caller sees the failure. -/
def resolveBareModule (readFile : PathSegs → Option Text)
    (jsonParse : Text → Option ManifestVal)
    (nodeModulesDir : PathSegs) (id : Text) : Except Unit PathSegs :=
  match readFile (nodeModulesDir ++ [id, "package.json".toList]) with
  | none => .error ()
  | some raw =>
    match jsonParse raw with
    | none => .error ()
    | some pkg =>
      .ok (nodeModulesDir ++ [id]
        ++ splitSlash (jsStrOr pkg.moduleField (jsStrOr pkg.mainField "index.js".toList)))

/-- An HTTP-level response of the /@modules handler. -/
structure ModResponse where
  status : Nat
  body : Text
deriving DecidableEq

/-- The 404 body of the /@modules handler (index.js:45): it names the package. -/
def notFoundBody (id : Text) : Text := "Module not found: ".toList ++ id

/-- The full outcome of one /@modules request: the response, the cache after
the request, and whether the external bundler was invoked. -/
structure HandlerOutcome where
  response : ModResponse
  cache : DepCache
  invoked : Bool
deriving DecidableEq

/-- The /@modules request handler (index.js:35-48): resolve the bare module
first, then optimize it through the cache; any failure thrown by either step
is caught and becomes a 404 response whose body names the package. The
handler always returns a response, never propagates the failure further --
the server process survives. -/
def handleModules (readFile : PathSegs → Option Text)
    (jsonParse : Text → Option ManifestVal)
    (bundler : PathSegs → Except Unit Text)
    (nodeModulesDir : PathSegs) (cache : DepCache) (id : Text) : HandlerOutcome :=
  match resolveBareModule readFile jsonParse nodeModulesDir id with
  | .error _ => ⟨⟨404, notFoundBody id⟩, cache, false⟩
  | .ok fp =>
    let r := optimizeDep bundler cache id fp
    match r.result with
    | .ok t => ⟨⟨200, t⟩, r.cache, r.invoked⟩
    | .error _ => ⟨⟨404, notFoundBody id⟩, r.cache, r.invoked⟩

/-- Reference rewrite stated from the spec's edit-list formulation (section 4.2):
build the output left-to-right against the original immutable text, copying
every untouched stretch and substituting each bare occurrence span with
"/@modules/" and the name; a non-bare span is copied verbatim. `pos` is the
copy cursor into the original. -/
def rewriteByEditList (code : Text) : Nat → List ImportRecord → Text
  | pos, [] => code.drop pos
  | pos, r :: rest =>
    subseg code pos r.s
      ++ (if isBareName r.n then "/@modules/".toList ++ r.n.getD [] else subseg code r.s r.e)
      ++ rewriteByEditList code r.e rest

/-- Well-formed occurrence list per the spec's data model (section 3): spans
are ordered ascending, never overlap, and stay inside the text; `lo` is the
lower bound the next span must respect. -/
def chainWF (len : Nat) : Nat → List ImportRecord → Bool
  | _, [] => true
  | lo, r :: rest =>
    decide (lo ≤ r.s) && decide (r.s ≤ r.e) && decide (r.e ≤ len) && chainWF len r.e rest

/-! Concrete inputs from the spec's examples (section 8), with the lexer
records es-module-lexer produces for them: a static span excludes the
quotes, a dynamic span includes them, and n is the unquoted specifier. -/

/-- Example 1 input text. -/
def ex1Code : Text := "import foo from './foo.js'".toList

/-- Lexer record for the single static import of ex1Code. -/
def ex1Rec : ImportRecord := ⟨17, 25, -1, some "./foo.js".toList⟩

/-- The output Example 1 claims for a module at /src/app.js. -/
def ex1Claimed : Text := "import foo from '/src/foo.js'".toList

/-- Example 2 input text. -/
def ex2Code : Text := "import _ from 'lodash'".toList

/-- Lexer record for the single static import of ex2Code. -/
def ex2Rec : ImportRecord := ⟨15, 21, -1, some "lodash".toList⟩

/-- The output Example 2 claims. -/
def ex2Out : Text := "import _ from '/@modules/lodash'".toList

/-- Example 3 input text (a dynamic import with a relative specifier). -/
def ex3Code : Text := "const mod = await import('./lazy.js')".toList

/-- Lexer record for the dynamic import of ex3Code: the span [25, 36) covers
the quoted argument, d is the start of the import expression. -/
def ex3Rec : ImportRecord := ⟨25, 36, 18, some "./lazy.js".toList⟩

/-- A dynamic import whose literal specifier is a bare package name. -/
def dynBareCode : Text := "import('lodash')".toList

/-- Lexer record for dynBareCode: span [7, 15) covers the quoted argument. -/
def dynBareRec : ImportRecord := ⟨7, 15, 0, some "lodash".toList⟩

/-- A source text with zero static imports and one dynamic bare import. -/
def dynVueCode : Text := "const m = await import('vue')".toList

/-- Lexer record for dynVueCode. -/
def dynVueRec : ImportRecord := ⟨23, 28, 16, some "vue".toList⟩

/-! Helper lemmas. -/

theorem lookupDep_setDep_self (c : DepCache) (id v : Text) :
    lookupDep (setDep c id v) id = some v := by
  induction c with
  | nil => simp [setDep, lookupDep]
  | cons p rest ih =>
    by_cases h : p.1 = id
    · simp [setDep, lookupDep, h]
    · simp [setDep, lookupDep, h, ih]

theorem lookupDep_setDep_ne (c : DepCache) (id v k : Text) (h : k ≠ id) :
    lookupDep (setDep c id v) k = lookupDep c k := by
  have hik : ¬ id = k := fun hk => h hk.symm
  induction c with
  | nil => simp [setDep, lookupDep, hik]
  | cons p rest ih =>
    by_cases hp : p.1 = id
    · simp [setDep, lookupDep, hp, hik]
    · simp [setDep, lookupDep, hp, ih]

theorem optimizeDep_phases (bundler : PathSegs → Except Unit Text) (cache : DepCache)
    (id : Text) (fp : PathSegs) :
    optimizeDep bundler cache id fp = optimizeDepSequential bundler cache id fp := by
  unfold optimizeDep optimizeDepSequential optimizeDepCheck optimizeDepResume
  cases lookupDep cache id with
  | some t => rfl
  | none => cases bundler fp with
    | ok t => rfl
    | error e => rfl

theorem rewriteImports_cons (r : ImportRecord) (rest : List ImportRecord) (code : Text) :
    rewriteImports (r :: rest) code = rewriteStep (rewriteImports rest code) r := by
  simp [rewriteImports, List.foldl_append]

theorem rewriteStep_not_bare (acc : Text) (r : ImportRecord)
    (h : isBareName r.n = false) : rewriteStep acc r = acc := by
  cases hn : r.n with
  | none => simp [rewriteStep, hn]
  | some name =>
    rw [hn] at h
    simp only [isBareName] at h
    simp [rewriteStep, hn, h]

theorem rewriteImports_no_bare (recs : List ImportRecord) (code : Text)
    (h : ∀ r ∈ recs, isBareName r.n = false) : rewriteImports recs code = code := by
  induction recs with
  | nil => rfl
  | cons r rest ih =>
    rw [rewriteImports_cons, ih (fun x hx => h x (List.mem_cons_of_mem r hx)),
      rewriteStep_not_bare code r (h r (List.mem_cons_self r rest))]

theorem chainWF_mono (len : Nat) (recs : List ImportRecord) (lo lo' : Nat)
    (h : chainWF len lo recs = true) (hle : lo' ≤ lo) : chainWF len lo' recs = true := by
  cases recs with
  | nil => rfl
  | cons r rest =>
    simp only [chainWF, Bool.and_eq_true, decide_eq_true_eq] at h ⊢
    obtain ⟨⟨⟨h1, h2⟩, h3⟩, h4⟩ := h
    exact ⟨⟨⟨le_trans hle h1, h2⟩, h3⟩, h4⟩

theorem editList_take (code : Text) (recs : List ImportRecord) (k : Nat)
    (h : chainWF code.length k recs = true) :
    (rewriteByEditList code 0 recs).take k = code.take k := by
  cases recs with
  | nil => simp [rewriteByEditList]
  | cons r rest =>
    simp only [chainWF, Bool.and_eq_true, decide_eq_true_eq] at h
    obtain ⟨⟨⟨h1, h2⟩, h3⟩, -⟩ := h
    have hs : r.s ≤ code.length := le_trans h2 h3
    have hlen : (subseg code 0 r.s).length = r.s := by
      simp [subseg, Nat.min_eq_left hs]
    rw [rewriteByEditList, List.append_assoc, List.take_append_of_le_length (by omega)]
    simp [subseg, List.take_take, Nat.min_eq_left h1]

theorem editList_drop (code : Text) (recs : List ImportRecord) (k : Nat)
    (h : chainWF code.length k recs = true) :
    (rewriteByEditList code 0 recs).drop k = rewriteByEditList code k recs := by
  cases recs with
  | nil => simp [rewriteByEditList]
  | cons r rest =>
    simp only [chainWF, Bool.and_eq_true, decide_eq_true_eq] at h
    obtain ⟨⟨⟨h1, h2⟩, h3⟩, -⟩ := h
    have hs : r.s ≤ code.length := le_trans h2 h3
    have hlen : (subseg code 0 r.s).length = r.s := by
      simp [subseg, Nat.min_eq_left hs]
    rw [rewriteByEditList, rewriteByEditList, List.append_assoc, List.append_assoc,
      List.drop_append_of_le_length (by omega)]
    simp [subseg]

theorem rewriteImports_eq_editList (code : Text) (recs : List ImportRecord)
    (h : chainWF code.length 0 recs = true) :
    rewriteImports recs code = rewriteByEditList code 0 recs := by
  induction recs with
  | nil => rfl
  | cons r rest ih =>
    simp only [chainWF, Bool.and_eq_true, decide_eq_true_eq] at h
    obtain ⟨⟨⟨-, hse⟩, hel⟩, hrest⟩ := h
    have hrest0 : chainWF code.length 0 rest = true :=
      chainWF_mono code.length rest r.e 0 hrest (Nat.zero_le _)
    rw [rewriteImports_cons, ih hrest0]
    cases hb : isBareName r.n with
    | false =>
      rw [rewriteStep_not_bare _ _ hb]
      have htk : (rewriteByEditList code 0 rest).take r.e = code.take r.e :=
        editList_take code rest r.e hrest
      have hdr : (rewriteByEditList code 0 rest).drop r.e = rewriteByEditList code r.e rest :=
        editList_drop code rest r.e hrest
      calc rewriteByEditList code 0 rest
          = (rewriteByEditList code 0 rest).take r.e ++ (rewriteByEditList code 0 rest).drop r.e := by
            rw [List.take_append_drop]
        _ = code.take r.e ++ rewriteByEditList code r.e rest := by rw [htk, hdr]
        _ = (code.take r.e).take r.s ++ (code.take r.e).drop r.s ++ rewriteByEditList code r.e rest := by
            rw [List.take_append_drop]
        _ = rewriteByEditList code 0 (r :: rest) := by
            rw [rewriteByEditList, hb]
            simp [subseg, List.take_take, Nat.min_eq_left hse]
    | true =>
      cases hn : r.n with
      | none => rw [hn] at hb; simp [isBareName] at hb
      | some name =>
        have hcond : (!name.isEmpty && !startsWithChar name '/' && !startsWithChar name '.') = true := by
          rw [hn] at hb; simpa [isBareName] using hb
        have hstep : rewriteStep (rewriteByEditList code 0 rest) r =
            (rewriteByEditList code 0 rest).take r.s ++ ("/@modules/".toList ++ name)
              ++ (rewriteByEditList code 0 rest).drop r.e := by
          simp [rewriteStep, hn, hcond]
        rw [hstep,
          editList_take code rest r.s (chainWF_mono code.length rest r.e r.s hrest hse),
          editList_drop code rest r.e hrest, rewriteByEditList, hb, hn]
        simp [subseg]

/-! Claim theorems. -/

/-- C1 counterexample: serving the module at /src/app.js whose text is
`import foo from './foo.js'` leaves the text byte-identical -- the served .js
path runs rewriteImports only, which skips every specifier starting with "." --
so the served output is not the `import foo from '/src/foo.js'` the claim
requires. -/
theorem servedJs_relative_left_unchanged_cex :
    serveJs [ex1Rec] ex1Code = ex1Code ∧ ex1Code ≠ ex1Claimed :=
  ⟨by decide, by decide⟩

/-- C1 (amended): the served .js transform leaves every occurrence whose
specifier is missing, empty, absolute or relative unchanged (only bare
specifiers are rewritten); the resolveImports helper -- defined in the source
but not invoked by the served .js handler -- performs exactly the claimed
resolution: `./foo.js` in a module at /src/app.js resolves against the
module's directory to the root-relative `/src/foo.js`. -/
theorem servedJs_keeps_relative_resolveImports_rewrites :
    (∀ (code : Text) (recs : List ImportRecord),
        (∀ r ∈ recs, isBareName r.n = false) → serveJs recs code = code)
    ∧ resolveImports [ex1Rec] ex1Code ["src".toList] [] = ex1Claimed :=
  ⟨fun code recs h => rewriteImports_no_bare recs code h, by decide⟩

/-- C1 witness: the general part of the amended theorem applied to Example 1's
concrete module text and lexer record. -/
theorem servedJs_keeps_relative_resolveImports_rewrites_wit :
    serveJs [ex1Rec] ex1Code = ex1Code :=
  servedJs_keeps_relative_resolveImports_rewrites.1 ex1Code [ex1Rec] (by decide)

/-- C2: on a well-formed occurrence list of static imports, rewriteImports
equals the edit-list reference rewrite, which replaces exactly each bare
specifier span with "/@modules/" and the name and copies every other byte of
the module text verbatim; in particular `import _ from 'lodash'` becomes
`import _ from '/@modules/lodash'`. -/
theorem rewriteImports_bare_spans :
    (∀ (code : Text) (recs : List ImportRecord),
        chainWF code.length 0 recs = true → (∀ r ∈ recs, r.d = -1) →
        rewriteImports recs code = rewriteByEditList code 0 recs)
    ∧ rewriteImports [ex2Rec] ex2Code = ex2Out :=
  ⟨fun code recs h _ => rewriteImports_eq_editList code recs h, by decide⟩

/-- C2 witness: the general part applied to Example 2's concrete module text
and lexer record. -/
theorem rewriteImports_bare_spans_wit :
    rewriteImports [ex2Rec] ex2Code = rewriteByEditList ex2Code 0 [ex2Rec] :=
  rewriteImports_bare_spans.1 ex2Code [ex2Rec] (by decide) (by decide)

/-- C3 counterexample: a descriptor carrying both a script block and a
script-setup block synthesizes the script block's content -- the handler's
`if (descriptor.script) ... else if (descriptor.scriptSetup)` chain never
reaches scriptSetup when script is present -- so the emitted module equals the
script-only synthesis and differs from the scriptSetup-only synthesis the
claim requires. -/
theorem vue_both_blocks_script_wins_cex :
    chooseScript ⟨some "const a = 1".toList, some "const b = 2".toList, none⟩
        = "const a = 1".toList
    ∧ synthesizeVue (fun t => t)
        ⟨some "const a = 1".toList, some "const b = 2".toList, none⟩
      = synthesizeVue (fun t => t) ⟨some "const a = 1".toList, none, none⟩
    ∧ synthesizeVue (fun t => t)
        ⟨some "const a = 1".toList, some "const b = 2".toList, none⟩
      ≠ synthesizeVue (fun t => t) ⟨none, some "const b = 2".toList, none⟩ :=
  ⟨by decide, by decide, by decide⟩

/-- C3 (amended): when the descriptor has both a script block and a
script-setup block, the Component Splitter emits only the script content
(script takes precedence); the script-setup content is emitted only when no
script block is present. -/
theorem vue_script_precedence :
    (∀ (s : Text) (ss : Option Text) (tm : Option Text),
        chooseScript ⟨some s, ss, tm⟩ = s)
    ∧ (∀ (ss : Text) (tm : Option Text), chooseScript ⟨none, some ss, tm⟩ = ss)
    ∧ (∀ (compile : Text → Text) (s ss : Text) (tm : Option Text),
        synthesizeVue compile ⟨some s, some ss, tm⟩
          = synthesizeVue compile ⟨some s, none, tm⟩) :=
  ⟨fun _ _ _ => rfl, fun _ _ => rfl, fun _ _ _ _ => rfl⟩

/-- C4: the claim's own example is preserved -- a dynamic import with a
relative literal is served unchanged -- but a dynamic import whose literal is
a bare name is rewritten by the served path: rewriteImports never consults
the dynamic flag, so `import('lodash')` becomes `import(/@modules/lodash)`
(the splice covers the quotes, leaving syntactically invalid output), against
both the claim and resolveImports' explicit dynamic skip. -/
theorem rewrite_dynamic_bare_rewritten :
    rewriteImports [ex3Rec] ex3Code = ex3Code
    ∧ rewriteImports [dynBareRec] dynBareCode = "import(/@modules/lodash)".toList
    ∧ "import(/@modules/lodash)".toList ≠ dynBareCode
    ∧ resolveImports [dynBareRec] dynBareCode ["src".toList] [] = dynBareCode :=
  ⟨by decide, by decide, by decide, by decide⟩

/-! Concrete collaborators for the cache and handler claims. -/

/-- A concrete package name. -/
def exId : Text := "lodash".toList

/-- A concrete bundled output text. -/
def exText : Text := "export default 1;".toList

/-- A concrete dependency root. -/
def exNmDir : PathSegs := ["node_modules".toList]

/-- The entry path resolveBareModule yields for exId under exNmDir when the
manifest parses with neither module nor main field. -/
def exFp : PathSegs := ["node_modules".toList, "lodash".toList, "index.js".toList]

/-- A bundler collaborator that always succeeds with exText. -/
def exBundlerOk : PathSegs → Except Unit Text := fun _ => .ok exText

/-- A bundler collaborator that always fails. -/
def exBundlerFail : PathSegs → Except Unit Text := fun _ => .error ()

/-- A filesystem where every read succeeds with empty text. -/
def exReadManifest : PathSegs → Option Text := fun _ => some []

/-- A filesystem where every read fails (the manifest is missing). -/
def exReadNone : PathSegs → Option Text := fun _ => none

/-- A JSON collaborator parsing everything to an empty manifest. -/
def exParseEmpty : Text → Option ManifestVal := fun _ => some ⟨none, none⟩

/-- A JSON collaborator that rejects everything (the manifest is unparsable). -/
def exParseFail : Text → Option ManifestVal := fun _ => none

/-- C5: the pre-bundle cache memoizes per package name: a present entry makes
optimizeDep return exactly the stored text, with no bundler invocation and
the cache untouched; the first successful build stores its output under the
name, so later calls hit; and no optimizeDep call ever removes or changes an
entry already present -- entries live until process exit. -/
theorem depCache_memoization :
    (∀ (bundler : PathSegs → Except Unit Text) (cache : DepCache) (id : Text)
        (fp : PathSegs) (t : Text), lookupDep cache id = some t →
        optimizeDep bundler cache id fp = ⟨.ok t, cache, false⟩)
    ∧ (∀ (bundler : PathSegs → Except Unit Text) (cache : DepCache) (id : Text)
        (fp : PathSegs) (t : Text), lookupDep cache id = none → bundler fp = .ok t →
        optimizeDep bundler cache id fp = ⟨.ok t, setDep cache id t, true⟩
        ∧ lookupDep (setDep cache id t) id = some t)
    ∧ (∀ (bundler : PathSegs → Except Unit Text) (cache : DepCache) (id : Text)
        (fp : PathSegs) (k t : Text), lookupDep cache k = some t →
        lookupDep (optimizeDep bundler cache id fp).cache k = some t) := by
  refine ⟨?_, ?_, ?_⟩
  · intro bundler cache id fp t h
    simp [optimizeDep, h]
  · intro bundler cache id fp t h hb
    simp [optimizeDep, h, hb, lookupDep_setDep_self]
  · intro bundler cache id fp k t h
    by_cases hik : id = k
    · subst hik
      simp [optimizeDep, h]
    · unfold optimizeDep
      cases hq : lookupDep cache id with
      | some u => simpa using h
      | none =>
        cases hb : bundler fp with
        | ok u =>
          simpa [lookupDep_setDep_ne cache id u k (fun hk => hik hk.symm)] using h
        | error e => simpa using h

/-- C5 witness: a cache already holding lodash answers from the store, with
the bundler not invoked and the cache unchanged. -/
theorem depCache_memoization_wit :
    optimizeDep exBundlerOk [(exId, exText)] exId exFp
      = ⟨.ok exText, [(exId, exText)], false⟩ :=
  depCache_memoization.1 exBundlerOk [(exId, exText)] exId exFp exText (by decide)

/-- C6 counterexample: two first-requests for lodash interleaved at the await
point of optimizeDep, starting from the empty cache, invoke the external
bundler twice -- not the exactly-once the claim requires. -/
theorem concurrent_misses_double_invoke_cex :
    (twoConcurrentCalls exBundlerOk [] exId exFp).invocations = 2
    ∧ (twoConcurrentCalls exBundlerOk [] exId exFp).invocations ≠ 1 :=
  ⟨by decide, by decide⟩

/-- C6 (amended): optimizeDep is exactly its check phase followed by its
resume phase with the await of the bundler in between, and nothing marks a
build as in flight; hence two first-requests for the same uncached name that
interleave at that await both miss and both invoke the bundler -- two
invocations, no coalescing. With the deterministic bundler succeeding, both
requests still resolve to the same text and the final cache stores it. -/
theorem concurrent_misses_no_dedup :
    (∀ (bundler : PathSegs → Except Unit Text) (cache : DepCache) (id : Text)
        (fp : PathSegs),
        optimizeDep bundler cache id fp = optimizeDepSequential bundler cache id fp)
    ∧ (∀ (bundler : PathSegs → Except Unit Text) (cache0 : DepCache) (id : Text)
        (fp : PathSegs) (t : Text), lookupDep cache0 id = none → bundler fp = .ok t →
        twoConcurrentCalls bundler cache0 id fp
          = ⟨.ok t, .ok t, setDep (setDep cache0 id t) id t, 2⟩
        ∧ lookupDep (twoConcurrentCalls bundler cache0 id fp).cache id = some t) := by
  refine ⟨optimizeDep_phases, ?_⟩
  intro bundler cache0 id fp t h hb
  refine ⟨?_, ?_⟩
  · simp [twoConcurrentCalls, optimizeDepCheck, optimizeDepResume, h, hb]
  · simp [twoConcurrentCalls, optimizeDepCheck, optimizeDepResume, h, hb,
      lookupDep_setDep_self]

/-- C6 witness: the interleaving instantiated at lodash on the empty cache. -/
theorem concurrent_misses_no_dedup_wit :
    twoConcurrentCalls exBundlerOk [] exId exFp
      = ⟨.ok exText, .ok exText, setDep (setDep [] exId exText) exId exText, 2⟩ :=
  (concurrent_misses_no_dedup.2 exBundlerOk [] exId exFp exText rfl rfl).1

/-- C7: a failing bundler invocation makes optimizeDep fail with the cache
left exactly as it was -- no entry is stored -- and the /@modules handler
answers 404 with a body naming the package; a later call for the same name
still misses, invokes the bundler again, and a succeeding retry stores. -/
theorem prebundle_error_no_poison :
    ∀ (readFile : PathSegs → Option Text) (jsonParse : Text → Option ManifestVal)
      (bundler : PathSegs → Except Unit Text) (nmDir : PathSegs) (cache : DepCache)
      (id : Text) (fp : PathSegs),
      lookupDep cache id = none →
      bundler fp = .error () →
      optimizeDep bundler cache id fp = ⟨.error (), cache, true⟩
      ∧ (resolveBareModule readFile jsonParse nmDir id = .ok fp →
          handleModules readFile jsonParse bundler nmDir cache id
            = ⟨⟨404, notFoundBody id⟩, cache, true⟩)
      ∧ (∀ (bundler2 : PathSegs → Except Unit Text) (t : Text), bundler2 fp = .ok t →
          optimizeDep bundler2 cache id fp = ⟨.ok t, setDep cache id t, true⟩) := by
  intro readFile jsonParse bundler nmDir cache id fp h hb
  refine ⟨by simp [optimizeDep, h, hb], ?_, ?_⟩
  · intro hres
    simp [handleModules, hres, optimizeDep, h, hb]
  · intro bundler2 t hb2
    simp [optimizeDep, h, hb2]

/-- C7 witness: the failing build for lodash on the empty cache, with the
manifest resolving through the concrete collaborators. -/
theorem prebundle_error_no_poison_wit :
    handleModules exReadManifest exParseEmpty exBundlerFail exNmDir [] exId
      = ⟨⟨404, notFoundBody exId⟩, [], true⟩ :=
  ((prebundle_error_no_poison exReadManifest exParseEmpty exBundlerFail exNmDir []
      exId exFp rfl rfl).2.1) (by decide)

/-- C8: a missing or unparsable package manifest makes resolveBareModule
fail, and the /@modules handler converts the failure into a 404 response
whose body is exactly "Module not found: " followed by the package name; the
handler returns that response normally (the failure is caught at the request
boundary, not propagated), with the cache untouched and the bundler never
invoked. -/
theorem bare_resolution_failure_404 :
    ∀ (readFile : PathSegs → Option Text) (jsonParse : Text → Option ManifestVal)
      (bundler : PathSegs → Except Unit Text) (nmDir : PathSegs) (cache : DepCache)
      (id : Text),
      (readFile (nmDir ++ [id, "package.json".toList]) = none
        ∨ ∃ raw, readFile (nmDir ++ [id, "package.json".toList]) = some raw
            ∧ jsonParse raw = none) →
      resolveBareModule readFile jsonParse nmDir id = .error ()
      ∧ handleModules readFile jsonParse bundler nmDir cache id
          = ⟨⟨404, notFoundBody id⟩, cache, false⟩
      ∧ notFoundBody id = "Module not found: ".toList ++ id := by
  intro readFile jsonParse bundler nmDir cache id h
  have hres : resolveBareModule readFile jsonParse nmDir id = .error () := by
    unfold resolveBareModule
    split
    · rfl
    · split
      · rfl
      · rcases h with h | ⟨raw, hr, hp⟩ <;> simp_all
  exact ⟨hres, by simp [handleModules, hres], rfl⟩

/-- C8 witness: resolving the package does-not-exist over a filesystem with
no manifest yields the 404 naming it. -/
theorem bare_resolution_failure_404_wit :
    handleModules exReadNone exParseFail exBundlerOk exNmDir []
        "does-not-exist".toList
      = ⟨⟨404, notFoundBody "does-not-exist".toList⟩, [], false⟩ :=
  (bare_resolution_failure_404 exReadNone exParseFail exBundlerOk exNmDir []
      "does-not-exist".toList (Or.inl rfl)).2.1

/-- C9: resolveImports honors the no-static-imports invariant -- zero records
short-circuit and dynamic-only records produce no edits, so the output is the
input -- but the served rewrite path violates the claim: rewriteImports
rewrites the dynamic bare literal of `const m = await import('vue')`, a text
with zero static import occurrences, so its output differs from its input. -/
theorem no_static_imports_rewrite :
    (∀ (code : Text) (currentDir cwd : PathSegs) (recs : List ImportRecord),
        (∀ r ∈ recs, r.d > -1) → resolveImports recs code currentDir cwd = code)
    ∧ rewriteImports [dynVueRec] dynVueCode
        = "const m = await import(/@modules/vue)".toList
    ∧ "const m = await import(/@modules/vue)".toList ≠ dynVueCode := by
  refine ⟨?_, by decide, by decide⟩
  intro code currentDir cwd recs h
  have hedits : resolveEdits code currentDir cwd recs = [] := by
    induction recs with
    | nil => rfl
    | cons r rest ih =>
      have hd := h r (List.mem_cons_self r rest)
      simp only [resolveEdits, hd, if_pos]
      exact ih (fun x hx => h x (List.mem_cons_of_mem r hx))
  unfold resolveImports
  by_cases hn : recs.length = 0
  · simp [hn]
  · simp [hn, hedits, applyEdits]

/-- C10: the /@modules handler resolves the bare module -- reading and parsing
the manifest -- before it consults the pre-bundle cache: when the manifest
read fails, the request answers 404 naming the package even though the cache
already stores bundled text for that very name, and the stored text is not
returned (the response status is 404, the bundler is not invoked, the cache
is unchanged). -/
theorem resolver_before_cache_404 :
    ∀ (readFile : PathSegs → Option Text) (jsonParse : Text → Option ManifestVal)
      (bundler : PathSegs → Except Unit Text) (nmDir : PathSegs) (cache : DepCache)
      (id t : Text),
      lookupDep cache id = some t →
      readFile (nmDir ++ [id, "package.json".toList]) = none →
      handleModules readFile jsonParse bundler nmDir cache id
          = ⟨⟨404, notFoundBody id⟩, cache, false⟩
      ∧ (handleModules readFile jsonParse bundler nmDir cache id).response.status ≠ 200 := by
  intro readFile jsonParse bundler nmDir cache id t h hr
  have hres : resolveBareModule readFile jsonParse nmDir id = .error () := by
    unfold resolveBareModule
    split
    · rfl
    · simp_all
  refine ⟨by simp [handleModules, hres], ?_⟩
  simp [handleModules, hres]

/-- C10 witness: the cache stores text for lodash, yet a failing manifest
read makes the request answer 404 rather than the cached text. -/
theorem resolver_before_cache_404_wit :
    handleModules exReadNone exParseEmpty exBundlerOk exNmDir [(exId, exText)] exId
      = ⟨⟨404, notFoundBody exId⟩, [(exId, exText)], false⟩ :=
  (resolver_before_cache_404 exReadNone exParseEmpty exBundlerOk exNmDir
      [(exId, exText)] exId exText (by decide) rfl).1

end ViteMini
